import Mathlib

/-!
Verification of the Ola Ride Insights data pipeline (`app.py`).

The development shallowly embeds the data-cleaning pipeline
(`load_and_clean`), the sqlite load (`df.to_sql`), and the fixed query
catalog as executable Lean functions over an explicit cell/dataframe
model, and proves the specified properties about them.
-/

set_option maxHeartbeats 1000000

namespace OlaRide

/-! ### Python string stripping

Model of Python's `str.strip()` (used as `c.strip()` on column names and
as `.str.strip()` on categorical columns): drop whitespace characters
from both ends of the string. -/

/-- Whitespace characters recognised by Python's `str.strip()`
(restricted to the ASCII whitespace set). -/
def isPyWS (c : Char) : Bool :=
  c = ' ' || c = '\t' || c = '\n' || c = '\r' || c = '\x0b' || c = '\x0c'

/-- Drop leading whitespace from a character list. -/
def dropLead (l : List Char) : List Char := l.dropWhile isPyWS

/-- Drop trailing whitespace from a character list. -/
def dropTrail (l : List Char) : List Char := (l.reverse.dropWhile isPyWS).reverse

/-- Model of Python `str.strip()`. -/
def pyStrip (s : String) : String := String.mk (dropTrail (dropLead s.data))

theorem dropWhile_head_not (p : α → Bool) (l : List α) (a : α)
    (h : (l.dropWhile p).head? = some a) : p a = false := by
  induction l with
  | nil => simp [List.dropWhile] at h
  | cons x xs ih =>
    rw [List.dropWhile] at h
    by_cases hpx : p x
    · rw [hpx] at h; exact ih h
    · simp [hpx] at h; subst h; simpa using hpx

theorem dropWhile_eq_self_of_head (p : α → Bool) (l : List α)
    (h : ∀ a, l.head? = some a → p a = false) : l.dropWhile p = l := by
  cases l with
  | nil => rfl
  | cons x xs =>
    have := h x rfl
    simp [List.dropWhile, this]

theorem dropLead_idem (l : List Char) : dropLead (dropLead l) = dropLead l := by
  apply dropWhile_eq_self_of_head
  intro a ha
  exact dropWhile_head_not _ _ _ ha

theorem dropTrail_idem (l : List Char) : dropTrail (dropTrail l) = dropTrail l := by
  unfold dropTrail
  rw [List.reverse_reverse]
  rw [dropWhile_eq_self_of_head isPyWS _ (fun a ha => dropWhile_head_not _ _ _ ha)]

/-- Dropping trailing whitespace yields an initial segment of the list. -/
theorem dropTrail_append_eq (l : List Char) : ∃ t, dropTrail l ++ t = l := by
  have h : ∃ t, t ++ (l.reverse.dropWhile isPyWS) = l.reverse :=
    List.dropWhile_suffix _
  obtain ⟨t, ht⟩ := h
  refine ⟨t.reverse, ?_⟩
  have h2 := congrArg List.reverse ht
  simpa [dropTrail] using h2

theorem head?_dropTrail (l : List Char) :
    ∀ b, (dropTrail l).head? = some b → l.head? = some b := by
  intro b hb
  obtain ⟨t, ht⟩ := dropTrail_append_eq l
  cases h : dropTrail l with
  | nil => rw [h] at hb; simp at hb
  | cons x xs =>
    rw [h] at hb
    simp at hb
    subst hb
    rw [← ht, h]
    simp

theorem dropLead_dropTrail_comm (l : List Char) :
    dropLead (dropTrail (dropLead l)) = dropTrail (dropLead l) := by
  apply dropWhile_eq_self_of_head
  intro a ha
  have := head?_dropTrail (dropLead l) a ha
  exact dropWhile_head_not _ _ _ this

theorem pyStrip_idem (s : String) : pyStrip (pyStrip s) = pyStrip s := by
  unfold pyStrip
  congr 1
  show dropTrail (dropLead (dropTrail (dropLead s.data))) = dropTrail (dropLead s.data)
  rw [dropLead_dropTrail_comm, dropTrail_idem]

/-! ### Timestamps

Model of the timestamp values handled by `pd.to_datetime(..., errors='coerce')`
and rendered by `.dt.strftime('%Y-%m-%d')`. -/

/-- A calendar timestamp with second resolution (pandas `Timestamp`). -/
structure DateTime where
  year : Nat
  month : Nat
  day : Nat
  hour : Nat
  minute : Nat
  second : Nat
deriving DecidableEq, Repr

/-- Gregorian leap-year test. -/
def isLeap (y : Nat) : Bool :=
  (y % 4 == 0 && y % 100 != 0) || y % 400 == 0

/-- Days in a month of the Gregorian calendar. -/
def daysInMonth (y m : Nat) : Nat :=
  if m = 2 then (if isLeap y then 29 else 28)
  else if m = 4 || m = 6 || m = 9 || m = 11 then 30
  else 31

/-- Validity of a parsed timestamp (what `pd.to_datetime` accepts). -/
def validDT (d : DateTime) : Bool :=
  1 ≤ d.year && d.year ≤ 9999 &&
  1 ≤ d.month && d.month ≤ 12 &&
  1 ≤ d.day && d.day ≤ daysInMonth d.year d.month &&
  d.hour ≤ 23 && d.minute ≤ 59 && d.second ≤ 59

/-- Split a character list on a separator character. -/
def splitOnChar (sep : Char) (l : List Char) : List (List Char) :=
  match l with
  | [] => [[]]
  | c :: cs =>
    let rest := splitOnChar sep cs
    if c = sep then [] :: rest
    else match rest with
      | [] => [[c]]
      | r :: rs => (c :: r) :: rs

/-- Numeric value of a digit list. -/
def digitsVal (cs : List Char) : Nat :=
  cs.foldl (fun acc c => acc * 10 + (c.toNat - 48)) 0

/-- All-digits test (nonempty). -/
def allDigits (cs : List Char) : Bool :=
  !cs.isEmpty && cs.all Char.isDigit

/-- Parse a `Y-M-D` date component list (4-digit year, 1–2 digit month/day). -/
def parseDateParts (cs : List Char) : Option (Nat × Nat × Nat) :=
  match splitOnChar '-' cs with
  | [y, m, d] =>
    if allDigits y && y.length = 4 &&
       allDigits m && m.length ≤ 2 &&
       allDigits d && d.length ≤ 2 then
      some (digitsVal y, digitsVal m, digitsVal d)
    else none
  | _ => none

/-- Parse an `H:M[:S]` time component list (1–2 digit fields). -/
def parseTimeParts (cs : List Char) : Option (Nat × Nat × Nat) :=
  match splitOnChar ':' cs with
  | [h, m] =>
    if allDigits h && h.length ≤ 2 && allDigits m && m.length ≤ 2 then
      some (digitsVal h, digitsVal m, 0)
    else none
  | [h, m, s] =>
    if allDigits h && h.length ≤ 2 && allDigits m && m.length ≤ 2 &&
       allDigits s && s.length ≤ 2 then
      some (digitsVal h, digitsVal m, digitsVal s)
    else none
  | _ => none

/-- Model of `pd.to_datetime(s, errors='coerce')` on a string: accepts
ISO-style `YYYY-MM-DD` optionally followed by a space and `HH:MM[:SS]`,
validates the calendar fields, and rejects everything else. -/
def parseDateTimeString (s : String) : Option DateTime :=
  let cs := dropTrail (dropLead s.data)
  match splitOnChar ' ' cs with
  | [d] => do
    let (y, m, dd) ← parseDateParts d
    let dt : DateTime := ⟨y, m, dd, 0, 0, 0⟩
    if validDT dt then some dt else none
  | [d, t] => do
    let (y, m, dd) ← parseDateParts d
    let (h, mi, sec) ← parseTimeParts t
    let dt : DateTime := ⟨y, m, dd, h, mi, sec⟩
    if validDT dt then some dt else none
  | _ => none

/-- Zero-padded 2-digit rendering. -/
def pad2 (n : Nat) : String :=
  if n < 10 then "0" ++ toString n else toString n

/-- Zero-padded 4-digit rendering. -/
def pad4 (n : Nat) : String :=
  if n < 10 then "000" ++ toString n
  else if n < 100 then "00" ++ toString n
  else if n < 1000 then "0" ++ toString n
  else toString n

/-- Rendering used by `.dt.strftime('%Y-%m-%d')`. -/
def renderDate (d : DateTime) : String :=
  pad4 d.year ++ "-" ++ pad2 d.month ++ "-" ++ pad2 d.day

/-- Full rendering of a timestamp (Python `str(Timestamp)`). -/
def renderDateTime (d : DateTime) : String :=
  renderDate d ++ " " ++ pad2 d.hour ++ ":" ++ pad2 d.minute ++ ":" ++ pad2 d.second

/-! ### Cells

A cell of the dataframe: missing (`NaN`/`NaT`/`None`), text, integer,
float (modelled as a rational) or timestamp. -/

inductive Cell where
  | null
  | str (s : String)
  | int (n : Int)
  | float (q : Rat)
  | datetime (d : DateTime)
deriving DecidableEq, Repr

/-- Python rendering of a float value. -/
def renderFloat (q : Rat) : String :=
  if q.den = 1 then toString q.num ++ ".0" else toString q

/-- Model of pandas `Series.fillna(v)` on one cell. -/
def fillnaCell (v : Cell) (c : Cell) : Cell :=
  match c with
  | .null => v
  | c => c

/-- Model of pandas `Series.astype(str)` on one cell: every value becomes
its text rendering; a missing value becomes the string `"nan"`. -/
def astypeStrCell (c : Cell) : Cell :=
  match c with
  | .null => .str "nan"
  | .str s => .str s
  | .int n => .str (toString n)
  | .float q => .str (renderFloat q)
  | .datetime d => .str (renderDateTime d)

/-- Model of pandas `Series.str.strip()` on one cell (`NaN` on non-text). -/
def strStripCell (c : Cell) : Cell :=
  match c with
  | .str s => .str (pyStrip s)
  | _ => .null

/-- Model of the masked assignment `df.loc[col == '', col] = label`. -/
def maskEmptyCell (label : String) (c : Cell) : Cell :=
  if c = .str "" then .str label else c

/-- The categorical-fill composite applied to `Payment_Method` and
`Incomplete_Rides_Reason`: `fillna('').astype(str).str.strip()` followed by
replacing the empty string with a sentinel label. -/
def catFillCell (label : String) (c : Cell) : Cell :=
  maskEmptyCell label (strStripCell (astypeStrCell (fillnaCell (.str "") c)))

/-- Integral numeric syntax: a bare digit string. -/
def parseIntPart (neg : Bool) (ip : List Char) : Option Cell :=
  if allDigits ip then
    some (.int (if neg then -(digitsVal ip : Int) else (digitsVal ip : Int)))
  else none

/-- Fractional numeric syntax: digits, a decimal point, digits (one side
may be empty but not both). -/
def parseFloatPart (neg : Bool) (ip fp : List Char) : Option Cell :=
  if ip.all Char.isDigit && fp.all Char.isDigit && !(ip.isEmpty && fp.isEmpty) then
    some (.float ((if neg then -1 else 1) *
      ((digitsVal ip : Rat) + (digitsVal fp : Rat) / ((10 : Rat) ^ fp.length))))
  else none

/-- Digit part of the numeric grammar accepted by `pd.to_numeric`:
digits with an optional single decimal point; integral syntax parses to
an integer, fractional syntax to a float. -/
def parseNumericCore (neg : Bool) (cs : List Char) : Option Cell :=
  match splitOnChar '.' cs with
  | [ip] => parseIntPart neg ip
  | [ip, fp] => parseFloatPart neg ip fp
  | _ => none

/-- Sign handling of the numeric grammar: an optional leading `-` or `+`
before the digits. -/
def parseNumericList (l : List Char) : Option Cell :=
  match l with
  | [] => parseNumericCore false []
  | c :: r =>
    if c = '-' then parseNumericCore true r
    else if c = '+' then parseNumericCore false r
    else parseNumericCore false (c :: r)

/-- Model of `pd.to_numeric(s, errors='coerce')` on a string: optional
surrounding whitespace and sign, then the digit grammar of
`parseNumericCore`; anything else fails to parse. -/
def parseNumeric (s : String) : Option Cell :=
  parseNumericList (dropTrail (dropLead s.data))

/-- Model of `pd.to_numeric(c, errors='coerce')` on one cell. -/
def toNumericCell (c : Cell) : Cell :=
  match c with
  | .null => .null
  | .int n => .int n
  | .float q => .float q
  | .str s => (parseNumeric s).getD .null
  | .datetime _ => .null

/-- Truncation toward zero, as in `float.__int__`. -/
def ratTrunc (q : Rat) : Int :=
  if 0 ≤ q then q.floor else -(-q).floor

/-- Model of `Series.astype(int)` on one cell (the column is numeric and
non-null when the source applies it). -/
def astypeIntCell (c : Cell) : Cell :=
  match c with
  | .int n => .int n
  | .float q => .int (ratTrunc q)
  | c => c

/-- The numeric-coercion composite applied to `Ride_Distance`:
`pd.to_numeric(col, errors='coerce').fillna(0).astype(int)`. -/
def rideDistanceCleanCell (c : Cell) : Cell :=
  astypeIntCell (fillnaCell (.int 0) (toNumericCell c))

/-- The numeric-coercion composite applied to `Booking_Value` (same source
expression as `Ride_Distance`). -/
def bookingValueCleanCell (c : Cell) : Cell :=
  astypeIntCell (fillnaCell (.int 0) (toNumericCell c))

/-- The coercion applied to `Driver_Ratings` and `Customer_Rating`:
`pd.to_numeric(col, errors='coerce')` alone (no zero-fill). -/
def ratingCleanCell (c : Cell) : Cell :=
  toNumericCell c

/-- Model of `pd.to_datetime(c, errors='coerce')` on one cell. -/
def toDatetimeCell (c : Cell) : Cell :=
  match c with
  | .null => .null
  | .datetime d => .datetime d
  | .str s => match parseDateTimeString s with
    | some d => .datetime d
    | none => .null
  | .int _ => .null
  | .float _ => .null

/-- Model of `.dt.strftime('%Y-%m-%d')` on one cell of a datetime column
(`NaT` renders to `NaN`). -/
def strftimeCell (c : Cell) : Cell :=
  match c with
  | .datetime d => .str (renderDate d)
  | _ => .null

/-- Pandas string concatenation with `' '` in the middle: missingness
propagates, text concatenates. -/
def concatSpaceCell (a b : Cell) : Cell :=
  match a with
  | .str x =>
    match b with
    | .str y => .str (x ++ " " ++ y)
    | _ => .null
  | _ => .null

/-- The per-row timestamp derivation of the source:
`pd.to_datetime(df['Date'].dt.strftime('%Y-%m-%d') + ' ' + df['Time'], errors='coerce')`
where `df['Date']` has already been parsed and `df['Time']` cast to text. -/
def deriveTimestampCell (d t : Cell) : Cell :=
  toDatetimeCell (concatSpaceCell (strftimeCell (toDatetimeCell d)) (astypeStrCell t))

/-! ### DataFrames

A dataframe is an ordered association of column names to columns, as in
pandas; `setCol` models column assignment `df[name] = col` (replace the
named column, or append it when absent) and `getCol` models `df[name]`. -/

abbrev Column := List Cell

abbrev DataFrame := List (String × Column)

/-- Model of `name in df.columns`. -/
def hasCol (df : DataFrame) (n : String) : Bool :=
  df.any (fun p => p.1 == n)

/-- Model of reading `df[name]`. -/
def getCol (df : DataFrame) (n : String) : Option Column :=
  (df.find? (fun p => p.1 == n)).map Prod.snd

/-- Overwrite every column entry labelled `n` (pandas assignment to an
existing label). -/
def replaceCol (df : DataFrame) (n : String) (c : Column) : DataFrame :=
  df.map (fun p => if p.1 == n then (n, c) else p)

/-- Model of the assignment `df[name] = col`. -/
def setCol (df : DataFrame) (n : String) (c : Column) : DataFrame :=
  if hasCol df n then replaceCol df n c
  else df ++ [(n, c)]

/-- The list of column names of a dataframe. -/
def colNames (df : DataFrame) : List String :=
  df.map Prod.fst

/-- Model of `df.columns = [c.strip() for c in df.columns]`. -/
def trimCols (df : DataFrame) : DataFrame :=
  df.map (fun p => (pyStrip p.1, p.2))

theorem hasCol_cons (p : String × Column) (ps : DataFrame) (n : String) :
    hasCol (p :: ps) n = ((p.1 == n) || hasCol ps n) := by
  simp [hasCol]

theorem getCol_cons (p : String × Column) (ps : DataFrame) (n : String) :
    getCol (p :: ps) n = if p.1 == n then some p.2 else getCol ps n := by
  by_cases hp : (p.1 == n) = true
  · simp [getCol, List.find?_cons_of_pos, hp]
  · simp [getCol, List.find?_cons_of_neg, hp]

theorem hasCol_eq_isSome (df : DataFrame) (n : String) :
    hasCol df n = (getCol df n).isSome := by
  induction df with
  | nil => simp [hasCol, getCol]
  | cons p ps ih =>
    rw [hasCol_cons, getCol_cons]
    by_cases hp : (p.1 == n) = true
    · simp [hp]
    · simp [hp, ih]

theorem hasCol_of_getCol {df : DataFrame} {n : String} {c : Column}
    (h : getCol df n = some c) : hasCol df n = true := by
  rw [hasCol_eq_isSome, h]; rfl

theorem getCol_isSome_of_hasCol {df : DataFrame} {n : String}
    (h : hasCol df n = true) : ∃ c, getCol df n = some c := by
  rw [hasCol_eq_isSome] at h
  exact Option.isSome_iff_exists.mp h

theorem hasCol_iff_mem_colNames (df : DataFrame) (n : String) :
    hasCol df n = true ↔ n ∈ colNames df := by
  unfold hasCol colNames
  rw [List.any_eq_true]
  constructor
  · rintro ⟨p, hp, hpn⟩
    exact List.mem_map.mpr ⟨p, hp, by simpa using hpn⟩
  · intro h
    obtain ⟨p, hp, hpn⟩ := List.mem_map.mp h
    exact ⟨p, hp, by simpa using hpn⟩

theorem getCol_replaceCol_self {df : DataFrame} {n : String} (c : Column)
    (h : hasCol df n = true) : getCol (replaceCol df n c) n = some c := by
  induction df with
  | nil => simp [hasCol] at h
  | cons p ps ih =>
    rw [hasCol_cons] at h
    unfold replaceCol
    by_cases hp : (p.1 == n) = true
    · have hpn : p.1 = n := by simpa using hp
      simp [getCol_cons, hp, hpn]
    · have hp' : (p.1 == n) = false := by simpa using hp
      rw [hp'] at h
      simp only [Bool.false_or] at h
      simp only [List.map_cons]
      rw [if_neg hp]
      rw [getCol_cons]
      rw [if_neg hp]
      exact ih h

theorem getCol_replaceCol_ne {df : DataFrame} {n m : String} (c : Column)
    (hnm : m ≠ n) : getCol (replaceCol df n c) m = getCol df m := by
  have hnm' : ¬((n == m) = true) := by
    intro hh
    have hnmeq : n = m := by simpa using hh
    exact hnm hnmeq.symm
  induction df with
  | nil => rfl
  | cons p ps ih =>
    unfold replaceCol
    by_cases hp : (p.1 == n) = true
    · have hpm : ¬((p.1 == m) = true) := by
        have : p.1 = n := by simpa using hp
        rw [this]; exact hnm'
      simp only [List.map_cons]
      rw [if_pos hp]
      rw [getCol_cons, getCol_cons]
      rw [if_neg hnm', if_neg hpm]
      exact ih
    · simp only [List.map_cons]
      rw [if_neg hp]
      rw [getCol_cons, getCol_cons]
      by_cases hpm : (p.1 == m) = true
      · rw [if_pos hpm, if_pos hpm]
      · rw [if_neg hpm, if_neg hpm]
        exact ih

theorem getCol_append_single_self {df : DataFrame} {n : String} (c : Column)
    (h : hasCol df n = false) : getCol (df ++ [(n, c)]) n = some c := by
  induction df with
  | nil => simp [getCol_cons]
  | cons p ps ih =>
    rw [hasCol_cons] at h
    simp only [Bool.or_eq_false_iff] at h
    rw [List.cons_append, getCol_cons]
    rw [if_neg (by simp [h.1])]
    exact ih h.2

theorem getCol_append_single_ne (df : DataFrame) {n m : String} (c : Column)
    (hnm : m ≠ n) : getCol (df ++ [(n, c)]) m = getCol df m := by
  have hnm' : ¬((n == m) = true) := by
    intro hh
    have hnmeq : n = m := by simpa using hh
    exact hnm hnmeq.symm
  induction df with
  | nil => simp [getCol, getCol_cons, hnm']
  | cons p ps ih =>
    rw [List.cons_append, getCol_cons, getCol_cons]
    by_cases hpm : (p.1 == m) = true
    · rw [if_pos hpm, if_pos hpm]
    · rw [if_neg hpm, if_neg hpm]
      exact ih

theorem getCol_setCol_self (df : DataFrame) (n : String) (c : Column) :
    getCol (setCol df n c) n = some c := by
  unfold setCol
  by_cases h : hasCol df n = true
  · rw [if_pos h]; exact getCol_replaceCol_self c h
  · rw [if_neg h]
    exact getCol_append_single_self c (by simpa using h)

theorem getCol_setCol_ne (df : DataFrame) {n m : String} (c : Column)
    (hnm : m ≠ n) : getCol (setCol df n c) m = getCol df m := by
  unfold setCol
  by_cases h : hasCol df n = true
  · rw [if_pos h]; exact getCol_replaceCol_ne c hnm
  · rw [if_neg h]; exact getCol_append_single_ne df c hnm

theorem hasCol_setCol_self (df : DataFrame) (n : String) (c : Column) :
    hasCol (setCol df n c) n = true :=
  hasCol_of_getCol (getCol_setCol_self df n c)

theorem hasCol_setCol_ne (df : DataFrame) {n m : String} (c : Column)
    (hnm : m ≠ n) : hasCol (setCol df n c) m = hasCol df m := by
  rw [hasCol_eq_isSome, hasCol_eq_isSome, getCol_setCol_ne df c hnm]

theorem replaceCol_id_of_not_hasCol {df : DataFrame} {n : String} (c : Column)
    (h : hasCol df n = false) : replaceCol df n c = df := by
  unfold replaceCol
  conv_rhs => rw [← List.map_id df]
  apply List.map_congr_left
  intro p hp
  have hpn : ¬((p.1 == n) = true) := by
    intro hcon
    have : hasCol df n = true := by
      unfold hasCol; rw [List.any_eq_true]; exact ⟨p, hp, hcon⟩
    rw [this] at h; exact absurd h (by simp)
  rw [if_neg hpn]
  rfl

theorem setCol_eq_self {df : DataFrame} {n : String} {c : Column}
    (hnd : (colNames df).Nodup) (h : getCol df n = some c) :
    setCol df n c = df := by
  unfold setCol
  rw [if_pos (hasCol_of_getCol h)]
  induction df with
  | nil => simp [getCol] at h
  | cons p ps ih =>
    unfold colNames at hnd
    simp only [List.map_cons, List.nodup_cons] at hnd
    rw [getCol_cons] at h
    unfold replaceCol
    by_cases hp : (p.1 == n) = true
    · rw [if_pos hp] at h
      have hpn : p.1 = n := by simpa using hp
      have hc : c = p.2 := by cases h; rfl
      subst hc
      have hn : hasCol ps n = false := by
        rw [← hpn]
        by_contra hcon
        simp only [Bool.not_eq_false] at hcon
        exact hnd.1 ((hasCol_iff_mem_colNames ps p.1).mp hcon)
      have htail := replaceCol_id_of_not_hasCol p.2 hn
      unfold replaceCol at htail
      simp only [List.map_cons]
      rw [if_pos hp, htail, ← hpn]
    · rw [if_neg hp] at h
      have := ih hnd.2 h
      unfold replaceCol at this
      simp only [List.map_cons]
      rw [if_neg hp, this]

theorem colNames_replaceCol (df : DataFrame) (n : String) (c : Column) :
    colNames (replaceCol df n c) = colNames df := by
  unfold colNames replaceCol
  rw [List.map_map]
  apply List.map_congr_left
  intro p _
  by_cases hp : (p.1 == n) = true
  · have : p.1 = n := by simpa using hp
    simp [Function.comp, hp, this]
  · simp [Function.comp, hp]

theorem colNames_setCol_of_hasCol (df : DataFrame) (n : String) (c : Column)
    (h : hasCol df n = true) : colNames (setCol df n c) = colNames df := by
  unfold setCol
  rw [if_pos h]
  exact colNames_replaceCol df n c

theorem colNames_setCol_of_not_hasCol (df : DataFrame) (n : String) (c : Column)
    (h : ¬hasCol df n = true) : colNames (setCol df n c) = colNames df ++ [n] := by
  unfold setCol
  rw [if_neg h]
  simp [colNames]

theorem nodup_colNames_setCol {df : DataFrame} (n : String) (c : Column)
    (hnd : (colNames df).Nodup) : (colNames (setCol df n c)).Nodup := by
  by_cases h : hasCol df n = true
  · rw [colNames_setCol_of_hasCol df n c h]; exact hnd
  · rw [colNames_setCol_of_not_hasCol df n c h]
    rw [List.nodup_append]
    refine ⟨hnd, List.nodup_singleton n, ?_⟩
    intro a ha hb
    simp only [List.mem_singleton] at hb
    subst hb
    exact (fun hx => h ((hasCol_iff_mem_colNames df a).mpr hx)) ha

theorem mem_colNames_setCol {df : DataFrame} {n m : String} {c : Column}
    (h : m ∈ colNames (setCol df n c)) : m ∈ colNames df ∨ m = n := by
  by_cases hc : hasCol df n = true
  · rw [colNames_setCol_of_hasCol df n c hc] at h; exact Or.inl h
  · rw [colNames_setCol_of_not_hasCol df n c hc] at h
    rcases List.mem_append.mp h with h' | h'
    · exact Or.inl h'
    · exact Or.inr (List.mem_singleton.mp h')

/-! ### Idempotence of the per-cell operations -/

/-- Possible results of the numeric parser: nothing, an integer cell or
a float cell. -/
abbrev numericShape (o : Option Cell) : Prop :=
  o = none ∨ (∃ n, o = some (.int n)) ∨ (∃ q, o = some (.float q))

theorem parseIntPart_shape (neg : Bool) (ip : List Char) :
    numericShape (parseIntPart neg ip) := by
  unfold parseIntPart
  by_cases hd : allDigits ip = true
  · rw [if_pos hd]; exact Or.inr (Or.inl ⟨_, rfl⟩)
  · rw [if_neg hd]; exact Or.inl rfl

theorem parseFloatPart_shape (neg : Bool) (ip fp : List Char) :
    numericShape (parseFloatPart neg ip fp) := by
  unfold parseFloatPart
  by_cases hd : (ip.all Char.isDigit && fp.all Char.isDigit && !(ip.isEmpty && fp.isEmpty)) = true
  · rw [if_pos hd]; exact Or.inr (Or.inr ⟨_, rfl⟩)
  · rw [if_neg hd]; exact Or.inl rfl

theorem parseNumericCore_shape (neg : Bool) (cs : List Char) :
    numericShape (parseNumericCore neg cs) := by
  unfold parseNumericCore
  rcases h : splitOnChar '.' cs with _ | ⟨ip, _ | ⟨fp, _ | ⟨x, xs⟩⟩⟩
  · exact Or.inl rfl
  · exact parseIntPart_shape neg ip
  · exact parseFloatPart_shape neg ip fp
  · exact Or.inl rfl

theorem parseNumericList_shape (l : List Char) :
    numericShape (parseNumericList l) := by
  rcases l with _ | ⟨c, r⟩
  · exact parseNumericCore_shape false []
  · show numericShape (if c = '-' then parseNumericCore true r
      else if c = '+' then parseNumericCore false r
      else parseNumericCore false (c :: r))
    by_cases h1 : c = '-'
    · rw [if_pos h1]; exact parseNumericCore_shape true r
    · rw [if_neg h1]
      by_cases h2 : c = '+'
      · rw [if_pos h2]; exact parseNumericCore_shape false r
      · rw [if_neg h2]; exact parseNumericCore_shape false (c :: r)

theorem parseNumeric_shape (s : String) :
    numericShape (parseNumeric s) :=
  parseNumericList_shape (dropTrail (dropLead s.data))

theorem toNumericCell_idem (c : Cell) :
    toNumericCell (toNumericCell c) = toNumericCell c := by
  cases c with
  | null => rfl
  | int n => rfl
  | float q => rfl
  | datetime d => rfl
  | str s =>
    show toNumericCell ((parseNumeric s).getD .null) = (parseNumeric s).getD .null
    rcases parseNumeric_shape s with h | ⟨n, h⟩ | ⟨q, h⟩ <;> rw [h] <;> rfl

theorem toDatetimeCell_idem (c : Cell) :
    toDatetimeCell (toDatetimeCell c) = toDatetimeCell c := by
  cases c with
  | null => rfl
  | int n => rfl
  | float q => rfl
  | datetime d => rfl
  | str s =>
    rcases h : parseDateTimeString s with _ | d <;>
      simp [toDatetimeCell, h]

theorem astypeStrCell_is_str (c : Cell) : ∃ t, astypeStrCell c = .str t := by
  cases c <;> exact ⟨_, rfl⟩

theorem astypeStrCell_idem (c : Cell) :
    astypeStrCell (astypeStrCell c) = astypeStrCell c := by
  obtain ⟨t, ht⟩ := astypeStrCell_is_str c
  rw [ht]; rfl

theorem catFillCell_shape (label : String) (c : Cell)
    (hl : pyStrip label = label) (hne : label ≠ "") :
    ∃ s, catFillCell label c = .str s ∧ s ≠ "" ∧ pyStrip s = s := by
  unfold catFillCell
  obtain ⟨t, ht⟩ := astypeStrCell_is_str (fillnaCell (.str "") c)
  rw [ht]
  show ∃ s, maskEmptyCell label (.str (pyStrip t)) = .str s ∧ s ≠ "" ∧ pyStrip s = s
  unfold maskEmptyCell
  by_cases he : pyStrip t = ""
  · rw [he]
    exact ⟨label, by simp, hne, hl⟩
  · refine ⟨pyStrip t, ?_, he, pyStrip_idem t⟩
    rw [if_neg (by simpa using he)]

theorem catFillCell_fixes (label : String) {s : String}
    (hs : s ≠ "") (hstrip : pyStrip s = s) :
    catFillCell label (.str s) = .str s := by
  show maskEmptyCell label (.str (pyStrip s)) = .str s
  rw [hstrip]
  unfold maskEmptyCell
  rw [if_neg (by simpa using hs)]

theorem catFillCell_idem (label : String) (c : Cell)
    (hl : pyStrip label = label) (hne : label ≠ "") :
    catFillCell label (catFillCell label c) = catFillCell label c := by
  obtain ⟨s, hs, hsne, hstrip⟩ := catFillCell_shape label c hl hne
  rw [hs, catFillCell_fixes label hsne hstrip]

theorem rideDistanceCleanCell_is_int (c : Cell) :
    ∃ n, rideDistanceCleanCell c = .int n := by
  unfold rideDistanceCleanCell
  cases c with
  | null => exact ⟨0, rfl⟩
  | int n => exact ⟨n, rfl⟩
  | float q => exact ⟨ratTrunc q, rfl⟩
  | datetime d => exact ⟨0, rfl⟩
  | str s =>
    show ∃ n, astypeIntCell (fillnaCell (.int 0) ((parseNumeric s).getD .null)) = .int n
    rcases parseNumeric_shape s with h | ⟨n, h⟩ | ⟨q, h⟩ <;> rw [h]
    · exact ⟨0, rfl⟩
    · exact ⟨n, rfl⟩
    · exact ⟨ratTrunc q, rfl⟩


theorem rideDistanceCleanCell_idem (c : Cell) :
    rideDistanceCleanCell (rideDistanceCleanCell c) = rideDistanceCleanCell c := by
  obtain ⟨n, hn⟩ := rideDistanceCleanCell_is_int c
  rw [hn]; rfl

theorem bookingValueCleanCell_idem (c : Cell) :
    bookingValueCleanCell (bookingValueCleanCell c) = bookingValueCleanCell c :=
  rideDistanceCleanCell_idem c

theorem ratingCleanCell_idem (c : Cell) :
    ratingCleanCell (ratingCleanCell c) = ratingCleanCell c :=
  toNumericCell_idem c

theorem map_idem_of_idem {g : Cell → Cell} (hg : ∀ x, g (g x) = g x)
    (l : List Cell) : (l.map g).map g = l.map g := by
  rw [List.map_map]
  apply List.map_congr_left
  intro a _
  exact hg a

/-! ### The cleaning pipeline (`load_and_clean`, no-cache path)

Shallow embedding of lines 44–74 of `app.py`: column-name trimming,
`Ride_Timestamp` derivation, categorical fill, numeric coercion. -/

/-- Presence-checked column transform:
`if name in df.columns: df[name] = g(df[name])`. -/
def cleanColStep (n : String) (g : Cell → Cell) (df : DataFrame) : DataFrame :=
  if hasCol df n then setCol df n (((getCol df n).getD []).map g)
  else df

/-- The per-row derivation applied after `Date` has been parsed and
`Time` cast to text:
`pd.to_datetime(date.strftime('%Y-%m-%d') + ' ' + time, errors='coerce')`. -/
def deriveTimestampPrepared (d t : Cell) : Cell :=
  toDatetimeCell (concatSpaceCell (strftimeCell d) t)

/-- The `Date`-and-`Time` branch of the timestamp step: overwrite `Date`
with its parsed form (line 49), `Time` with its text form (line 50), and
derive `Ride_Timestamp` from the two updated columns (lines 51–54). -/
def cleanTSDT (df : DataFrame) : DataFrame :=
  let dcol := ((getCol df "Date").getD []).map toDatetimeCell
  let df1 := setCol df "Date" dcol
  let tcol := ((getCol df1 "Time").getD []).map astypeStrCell
  let df2 := setCol df1 "Time" tcol
  setCol df2 "Ride_Timestamp" (List.zipWith deriveTimestampPrepared dcol tcol)

/-- The timestamp step of the source: if both `Date` and `Time` columns
exist, derive `Ride_Timestamp` from them; otherwise parse a pre-existing
`Ride_Timestamp` column in place if there is one. -/
def cleanTS (df : DataFrame) : DataFrame :=
  if hasCol df "Date" && hasCol df "Time" then
    cleanTSDT df
  else
    cleanColStep "Ride_Timestamp" toDatetimeCell df

/-- The categorical-fill and numeric-coercion steps (lines 59–74 of the
source), applied in source order. -/
def cleanCols (df : DataFrame) : DataFrame :=
  cleanColStep "Booking_Value" bookingValueCleanCell
    (cleanColStep "Customer_Rating" ratingCleanCell
      (cleanColStep "Driver_Ratings" ratingCleanCell
        (cleanColStep "Ride_Distance" rideDistanceCleanCell
          (cleanColStep "Incomplete_Rides_Reason" (catFillCell "Unknown Reason")
            (cleanColStep "Payment_Method" (catFillCell "Other") df)))))

/-- The full normalization of `load_and_clean` (lines 44–74 of the
source): trim the column names, derive the timestamp, fill the two
categorical columns, coerce the four numeric columns. -/
def clean (df : DataFrame) : DataFrame :=
  cleanCols (cleanTS (trimCols df))

/-! ### Structural lemmas about the pipeline steps -/

theorem getCol_eq_none_of_not_hasCol {df : DataFrame} {n : String}
    (h : hasCol df n = false) : getCol df n = none := by
  rcases hh : getCol df n with _ | c
  · rfl
  · rw [hasCol_of_getCol hh] at h
    exact absurd h (by simp)

theorem getCol_cleanColStep_self (n : String) (g : Cell → Cell) (df : DataFrame) :
    getCol (cleanColStep n g df) n = (getCol df n).map (List.map g) := by
  unfold cleanColStep
  by_cases h : hasCol df n = true
  · rw [if_pos h, getCol_setCol_self]
    obtain ⟨col, hc⟩ := getCol_isSome_of_hasCol h
    rw [hc]
    rfl
  · rw [if_neg h]
    rw [getCol_eq_none_of_not_hasCol (by simpa using h)]
    rfl

theorem getCol_cleanColStep_ne {m : String} (n : String) (g : Cell → Cell)
    (df : DataFrame) (hm : m ≠ n) :
    getCol (cleanColStep n g df) m = getCol df m := by
  unfold cleanColStep
  by_cases h : hasCol df n = true
  · rw [if_pos h, getCol_setCol_ne df _ hm]
  · rw [if_neg h]

theorem colNames_cleanColStep (n : String) (g : Cell → Cell) (df : DataFrame) :
    colNames (cleanColStep n g df) = colNames df := by
  unfold cleanColStep
  by_cases h : hasCol df n = true
  · rw [if_pos h, colNames_setCol_of_hasCol _ _ _ h]
  · rw [if_neg h]

theorem hasCol_cleanColStep (n : String) (g : Cell → Cell) (df : DataFrame)
    (m : String) : hasCol (cleanColStep n g df) m = hasCol df m := by
  by_cases hcm : hasCol df m = true
  · rw [hcm]
    rw [hasCol_iff_mem_colNames, colNames_cleanColStep]
    exact (hasCol_iff_mem_colNames df m).mp hcm
  · have h1 : ¬ m ∈ colNames df := fun hx =>
      hcm ((hasCol_iff_mem_colNames df m).mpr hx)
    have h2 : ¬ hasCol (cleanColStep n g df) m = true := by
      rw [hasCol_iff_mem_colNames, colNames_cleanColStep]
      exact h1
    simp only [Bool.not_eq_true] at hcm h2
    rw [hcm, h2]

theorem cleanColStep_eq_self {df : DataFrame} {n : String} {g : Cell → Cell}
    (hnd : (colNames df).Nodup)
    (him : getCol df n = none ∨ ∃ c, getCol df n = some (List.map g c))
    (hg : ∀ x, g (g x) = g x) :
    cleanColStep n g df = df := by
  unfold cleanColStep
  by_cases h : hasCol df n = true
  · rw [if_pos h]
    rcases him with hn | ⟨c, hc⟩
    · obtain ⟨col, hcol⟩ := getCol_isSome_of_hasCol h
      rw [hn] at hcol
      cases hcol
    · rw [hc]
      show setCol df n ((List.map g c).map g) = df
      rw [map_idem_of_idem hg]
      exact setCol_eq_self hnd hc
  · rw [if_neg h]

theorem cleanTSDT_eq (df : DataFrame) (d0 t0 : Column)
    (hd : getCol df "Date" = some d0) (ht : getCol df "Time" = some t0) :
    cleanTSDT df =
      setCol
        (setCol (setCol df "Date" (d0.map toDatetimeCell)) "Time" (t0.map astypeStrCell))
        "Ride_Timestamp"
        (List.zipWith deriveTimestampPrepared (d0.map toDatetimeCell)
          (t0.map astypeStrCell)) := by
  unfold cleanTSDT
  simp only [hd, Option.getD_some]
  rw [getCol_setCol_ne df _ (show "Time" ≠ "Date" by decide), ht]
  simp only [Option.getD_some]

theorem hasCol_cleanTS_ne (df : DataFrame) {m : String}
    (hm : m ≠ "Ride_Timestamp") :
    hasCol (cleanTS df) m = hasCol df m := by
  unfold cleanTS
  by_cases h : (hasCol df "Date" && hasCol df "Time") = true
  · rw [if_pos h]
    rw [Bool.and_eq_true] at h
    obtain ⟨d0, hd⟩ := getCol_isSome_of_hasCol h.1
    obtain ⟨t0, ht⟩ := getCol_isSome_of_hasCol h.2
    rw [cleanTSDT_eq df d0 t0 hd ht]
    rw [hasCol_setCol_ne _ _ hm]
    by_cases hmT : m = "Time"
    · subst hmT
      rw [hasCol_setCol_self]
      exact h.2.symm
    · rw [hasCol_setCol_ne _ _ hmT]
      by_cases hmD : m = "Date"
      · subst hmD
        rw [hasCol_setCol_self]
        exact h.1.symm
      · rw [hasCol_setCol_ne _ _ hmD]
  · rw [if_neg h]
    exact hasCol_cleanColStep _ _ _ m

theorem nodup_colNames_cleanTS {df : DataFrame}
    (hnd : (colNames df).Nodup) : (colNames (cleanTS df)).Nodup := by
  unfold cleanTS
  by_cases h : (hasCol df "Date" && hasCol df "Time") = true
  · rw [if_pos h]
    rw [Bool.and_eq_true] at h
    obtain ⟨d0, hd⟩ := getCol_isSome_of_hasCol h.1
    obtain ⟨t0, ht⟩ := getCol_isSome_of_hasCol h.2
    rw [cleanTSDT_eq df d0 t0 hd ht]
    exact nodup_colNames_setCol _ _ (nodup_colNames_setCol _ _ (nodup_colNames_setCol _ _ hnd))
  · rw [if_neg h]
    rw [colNames_cleanColStep]
    exact hnd

theorem mem_colNames_cleanTS {df : DataFrame} {m : String}
    (hm : m ∈ colNames (cleanTS df)) :
    m ∈ colNames df ∨ m = "Date" ∨ m = "Time" ∨ m = "Ride_Timestamp" := by
  unfold cleanTS at hm
  by_cases h : (hasCol df "Date" && hasCol df "Time") = true
  · rw [if_pos h] at hm
    rw [Bool.and_eq_true] at h
    obtain ⟨d0, hd⟩ := getCol_isSome_of_hasCol h.1
    obtain ⟨t0, ht⟩ := getCol_isSome_of_hasCol h.2
    rw [cleanTSDT_eq df d0 t0 hd ht] at hm
    rcases mem_colNames_setCol hm with hm1 | hm1
    · rcases mem_colNames_setCol hm1 with hm2 | hm2
      · rcases mem_colNames_setCol hm2 with hm3 | hm3
        · exact Or.inl hm3
        · exact Or.inr (Or.inl hm3)
      · exact Or.inr (Or.inr (Or.inl hm2))
    · exact Or.inr (Or.inr (Or.inr hm1))
  · rw [if_neg h] at hm
    rw [colNames_cleanColStep] at hm
    exact Or.inl hm

theorem colNames_trimCols (df : DataFrame) :
    colNames (trimCols df) = (colNames df).map pyStrip := by
  unfold colNames trimCols
  rw [List.map_map, List.map_map]
  rfl

theorem trimCols_eq_self {df : DataFrame}
    (h : ∀ nm ∈ colNames df, pyStrip nm = nm) : trimCols df = df := by
  unfold trimCols
  conv_rhs => rw [← List.map_id df]
  apply List.map_congr_left
  intro p hp
  have : pyStrip p.1 = p.1 := h p.1 (List.mem_map.mpr ⟨p, hp, rfl⟩)
  simp [this]

theorem colNames_cleanCols (df : DataFrame) :
    colNames (cleanCols df) = colNames df := by
  unfold cleanCols
  rw [colNames_cleanColStep, colNames_cleanColStep, colNames_cleanColStep,
    colNames_cleanColStep, colNames_cleanColStep, colNames_cleanColStep]

theorem hasCol_cleanCols (df : DataFrame) (m : String) :
    hasCol (cleanCols df) m = hasCol df m := by
  unfold cleanCols
  rw [hasCol_cleanColStep, hasCol_cleanColStep, hasCol_cleanColStep,
    hasCol_cleanColStep, hasCol_cleanColStep, hasCol_cleanColStep]

theorem getCol_cleanCols_ne (df : DataFrame) {m : String}
    (h1 : m ≠ "Booking_Value") (h2 : m ≠ "Customer_Rating")
    (h3 : m ≠ "Driver_Ratings") (h4 : m ≠ "Ride_Distance")
    (h5 : m ≠ "Incomplete_Rides_Reason") (h6 : m ≠ "Payment_Method") :
    getCol (cleanCols df) m = getCol df m := by
  unfold cleanCols
  rw [getCol_cleanColStep_ne _ _ _ h1, getCol_cleanColStep_ne _ _ _ h2,
    getCol_cleanColStep_ne _ _ _ h3, getCol_cleanColStep_ne _ _ _ h4,
    getCol_cleanColStep_ne _ _ _ h5, getCol_cleanColStep_ne _ _ _ h6]

theorem getCol_cleanCols_PM (df : DataFrame) :
    getCol (cleanCols df) "Payment_Method" =
      (getCol df "Payment_Method").map (List.map (catFillCell "Other")) := by
  unfold cleanCols
  rw [getCol_cleanColStep_ne _ _ _ (by decide), getCol_cleanColStep_ne _ _ _ (by decide),
    getCol_cleanColStep_ne _ _ _ (by decide), getCol_cleanColStep_ne _ _ _ (by decide),
    getCol_cleanColStep_ne _ _ _ (by decide)]
  exact getCol_cleanColStep_self _ _ _

theorem getCol_cleanCols_IRR (df : DataFrame) :
    getCol (cleanCols df) "Incomplete_Rides_Reason" =
      (getCol df "Incomplete_Rides_Reason").map
        (List.map (catFillCell "Unknown Reason")) := by
  unfold cleanCols
  rw [getCol_cleanColStep_ne _ _ _ (by decide), getCol_cleanColStep_ne _ _ _ (by decide),
    getCol_cleanColStep_ne _ _ _ (by decide), getCol_cleanColStep_ne _ _ _ (by decide)]
  rw [getCol_cleanColStep_self]
  rw [getCol_cleanColStep_ne _ _ _ (by decide)]

theorem getCol_cleanCols_RD (df : DataFrame) :
    getCol (cleanCols df) "Ride_Distance" =
      (getCol df "Ride_Distance").map (List.map rideDistanceCleanCell) := by
  unfold cleanCols
  rw [getCol_cleanColStep_ne _ _ _ (by decide), getCol_cleanColStep_ne _ _ _ (by decide),
    getCol_cleanColStep_ne _ _ _ (by decide)]
  rw [getCol_cleanColStep_self]
  rw [getCol_cleanColStep_ne _ _ _ (by decide), getCol_cleanColStep_ne _ _ _ (by decide)]

theorem getCol_cleanCols_DR (df : DataFrame) :
    getCol (cleanCols df) "Driver_Ratings" =
      (getCol df "Driver_Ratings").map (List.map ratingCleanCell) := by
  unfold cleanCols
  rw [getCol_cleanColStep_ne _ _ _ (by decide), getCol_cleanColStep_ne _ _ _ (by decide)]
  rw [getCol_cleanColStep_self]
  rw [getCol_cleanColStep_ne _ _ _ (by decide), getCol_cleanColStep_ne _ _ _ (by decide),
    getCol_cleanColStep_ne _ _ _ (by decide)]

theorem getCol_cleanCols_CR (df : DataFrame) :
    getCol (cleanCols df) "Customer_Rating" =
      (getCol df "Customer_Rating").map (List.map ratingCleanCell) := by
  unfold cleanCols
  rw [getCol_cleanColStep_ne _ _ _ (by decide)]
  rw [getCol_cleanColStep_self]
  rw [getCol_cleanColStep_ne _ _ _ (by decide), getCol_cleanColStep_ne _ _ _ (by decide),
    getCol_cleanColStep_ne _ _ _ (by decide), getCol_cleanColStep_ne _ _ _ (by decide)]

theorem getCol_cleanCols_BV (df : DataFrame) :
    getCol (cleanCols df) "Booking_Value" =
      (getCol df "Booking_Value").map (List.map bookingValueCleanCell) := by
  unfold cleanCols
  rw [getCol_cleanColStep_self]
  rw [getCol_cleanColStep_ne _ _ _ (by decide), getCol_cleanColStep_ne _ _ _ (by decide),
    getCol_cleanColStep_ne _ _ _ (by decide), getCol_cleanColStep_ne _ _ _ (by decide),
    getCol_cleanColStep_ne _ _ _ (by decide)]

/-- An option-valued column is `none` or the image of a cell map. -/
theorem image_shape_of_map (g : Cell → Cell) (o : Option Column) :
    (o.map (List.map g)) = none ∨ ∃ c, (o.map (List.map g)) = some (List.map g c) := by
  rcases o with _ | col
  · exact Or.inl rfl
  · exact Or.inr ⟨col, rfl⟩

/-- C1: Normalization is idempotent: on any dataset (with well-formed,
duplicate-free column labels after trimming, as pandas requires),
applying the normalization pipeline — column-name trimming, timestamp
derivation, categorical fill, numeric coercion — to its own output
changes nothing: `clean (clean df) = clean df`. -/
theorem clean_idempotent (df : DataFrame)
    (hnd : (colNames (trimCols df)).Nodup) :
    clean (clean df) = clean df := by
  have hndC : (colNames (clean df)).Nodup := by
    unfold clean
    rw [colNames_cleanCols]
    exact nodup_colNames_cleanTS hnd
  have hstripC : ∀ nm ∈ colNames (clean df), pyStrip nm = nm := by
    intro nm hm
    unfold clean at hm
    rw [colNames_cleanCols] at hm
    rcases mem_colNames_cleanTS hm with h1 | h1 | h1 | h1
    · rw [colNames_trimCols] at h1
      obtain ⟨x, _, hx⟩ := List.mem_map.mp h1
      rw [← hx]
      exact pyStrip_idem x
    · rw [h1]; decide
    · rw [h1]; decide
    · rw [h1]; decide
  have htrim : trimCols (clean df) = clean df := trimCols_eq_self hstripC
  have himPM : getCol (clean df) "Payment_Method" = none ∨
      ∃ c, getCol (clean df) "Payment_Method" =
        some (List.map (catFillCell "Other") c) := by
    unfold clean
    rw [getCol_cleanCols_PM]
    exact image_shape_of_map _ _
  have himIRR : getCol (clean df) "Incomplete_Rides_Reason" = none ∨
      ∃ c, getCol (clean df) "Incomplete_Rides_Reason" =
        some (List.map (catFillCell "Unknown Reason") c) := by
    unfold clean
    rw [getCol_cleanCols_IRR]
    exact image_shape_of_map _ _
  have himRD : getCol (clean df) "Ride_Distance" = none ∨
      ∃ c, getCol (clean df) "Ride_Distance" =
        some (List.map rideDistanceCleanCell c) := by
    unfold clean
    rw [getCol_cleanCols_RD]
    exact image_shape_of_map _ _
  have himDR : getCol (clean df) "Driver_Ratings" = none ∨
      ∃ c, getCol (clean df) "Driver_Ratings" =
        some (List.map ratingCleanCell c) := by
    unfold clean
    rw [getCol_cleanCols_DR]
    exact image_shape_of_map _ _
  have himCR : getCol (clean df) "Customer_Rating" = none ∨
      ∃ c, getCol (clean df) "Customer_Rating" =
        some (List.map ratingCleanCell c) := by
    unfold clean
    rw [getCol_cleanCols_CR]
    exact image_shape_of_map _ _
  have himBV : getCol (clean df) "Booking_Value" = none ∨
      ∃ c, getCol (clean df) "Booking_Value" =
        some (List.map bookingValueCleanCell c) := by
    unfold clean
    rw [getCol_cleanCols_BV]
    exact image_shape_of_map _ _
  have s1 : cleanColStep "Payment_Method" (catFillCell "Other") (clean df) = clean df :=
    cleanColStep_eq_self hndC himPM
      (fun x => catFillCell_idem "Other" x (by decide) (by decide))
  have s2 : cleanColStep "Incomplete_Rides_Reason" (catFillCell "Unknown Reason")
      (clean df) = clean df :=
    cleanColStep_eq_self hndC himIRR
      (fun x => catFillCell_idem "Unknown Reason" x (by decide) (by decide))
  have s3 : cleanColStep "Ride_Distance" rideDistanceCleanCell (clean df) = clean df :=
    cleanColStep_eq_self hndC himRD rideDistanceCleanCell_idem
  have s4 : cleanColStep "Driver_Ratings" ratingCleanCell (clean df) = clean df :=
    cleanColStep_eq_self hndC himDR ratingCleanCell_idem
  have s5 : cleanColStep "Customer_Rating" ratingCleanCell (clean df) = clean df :=
    cleanColStep_eq_self hndC himCR ratingCleanCell_idem
  have s6 : cleanColStep "Booking_Value" bookingValueCleanCell (clean df) = clean df :=
    cleanColStep_eq_self hndC himBV bookingValueCleanCell_idem
  have hts : cleanTS (clean df) = clean df := by
    by_cases hDT : (hasCol (trimCols df) "Date" && hasCol (trimCols df) "Time") = true
    · rw [Bool.and_eq_true] at hDT
      obtain ⟨d0, hd0⟩ := getCol_isSome_of_hasCol hDT.1
      obtain ⟨t0, ht0⟩ := getCol_isSome_of_hasCol hDT.2
      have hB0 : cleanTS (trimCols df) =
          setCol
            (setCol (setCol (trimCols df) "Date" (d0.map toDatetimeCell)) "Time"
              (t0.map astypeStrCell))
            "Ride_Timestamp"
            (List.zipWith deriveTimestampPrepared (d0.map toDatetimeCell)
              (t0.map astypeStrCell)) := by
        unfold cleanTS
        rw [if_pos (by rw [hDT.1, hDT.2]; rfl)]
        exact cleanTSDT_eq _ _ _ hd0 ht0
      have hCD : getCol (clean df) "Date" = some (d0.map toDatetimeCell) := by
        unfold clean
        rw [getCol_cleanCols_ne _ (by decide) (by decide) (by decide) (by decide)
          (by decide) (by decide)]
        rw [hB0]
        rw [getCol_setCol_ne _ _ (by decide), getCol_setCol_ne _ _ (by decide),
          getCol_setCol_self]
      have hCT : getCol (clean df) "Time" = some (t0.map astypeStrCell) := by
        unfold clean
        rw [getCol_cleanCols_ne _ (by decide) (by decide) (by decide) (by decide)
          (by decide) (by decide)]
        rw [hB0]
        rw [getCol_setCol_ne _ _ (by decide), getCol_setCol_self]
      have hCRT : getCol (clean df) "Ride_Timestamp" =
          some (List.zipWith deriveTimestampPrepared (d0.map toDatetimeCell)
            (t0.map astypeStrCell)) := by
        unfold clean
        rw [getCol_cleanCols_ne _ (by decide) (by decide) (by decide) (by decide)
          (by decide) (by decide)]
        rw [hB0, getCol_setCol_self]
      unfold cleanTS
      rw [if_pos (by rw [hasCol_of_getCol hCD, hasCol_of_getCol hCT]; rfl)]
      rw [cleanTSDT_eq _ _ _ hCD hCT]
      rw [map_idem_of_idem toDatetimeCell_idem, map_idem_of_idem astypeStrCell_idem]
      rw [setCol_eq_self hndC hCD]
      rw [setCol_eq_self hndC hCT]
      exact setCol_eq_self hndC hCRT
    · have hB0 : cleanTS (trimCols df) =
          cleanColStep "Ride_Timestamp" toDatetimeCell (trimCols df) := by
        unfold cleanTS
        rw [if_neg hDT]
      have hCRT : getCol (clean df) "Ride_Timestamp" =
          (getCol (trimCols df) "Ride_Timestamp").map (List.map toDatetimeCell) := by
        unfold clean
        rw [getCol_cleanCols_ne _ (by decide) (by decide) (by decide) (by decide)
          (by decide) (by decide)]
        rw [hB0]
        exact getCol_cleanColStep_self _ _ _
      have e1 : hasCol (clean df) "Date" = hasCol (trimCols df) "Date" := by
        unfold clean
        rw [hasCol_cleanCols, hasCol_cleanTS_ne _ (by decide)]
      have e2 : hasCol (clean df) "Time" = hasCol (trimCols df) "Time" := by
        unfold clean
        rw [hasCol_cleanCols, hasCol_cleanTS_ne _ (by decide)]
      unfold cleanTS
      rw [if_neg (by rw [e1, e2]; exact hDT)]
      apply cleanColStep_eq_self hndC _ toDatetimeCell_idem
      rw [hCRT]
      exact image_shape_of_map _ _
  show cleanCols (cleanTS (trimCols (clean df))) = clean df
  rw [htrim, hts]
  unfold cleanCols
  rw [s1, s2, s3, s4, s5, s6]

/-! ### `load_and_clean` control flow and persistence

The input environment of `load_and_clean`: the cached canonical CSV and
the raw Excel file, each present or absent.  The cache is abstracted as
storing the dataframe it serialises. -/

structure Env where
  cleanCsv : Option DataFrame
  excel : Option DataFrame

/-- Model of `load_and_clean` (lines 21–83): return the cached CSV when
present; otherwise clean the Excel data when present; otherwise report
that no source is available (`None`, after `st.error`). -/
def load_and_clean (env : Env) : Option DataFrame :=
  match env.cleanCsv with
  | some cached => some cached
  | none =>
    match env.excel with
    | some raw => some (clean raw)
    | none => none

/-- Lines 86–88: the caller stops (`st.stop`) exactly when
`load_and_clean` returned nothing. -/
def appHalts (env : Env) : Bool :=
  (load_and_clean env).isNone

/-- Outcome of a persistence attempt: the warnings shown to the user and
whether the run aborted. -/
structure PersistOutcome where
  warnings : List String
  aborted : Bool
deriving DecidableEq, Repr

/-- Lines 76–81: `try: df.to_csv(...) except Exception: pass` — a failed
cache write is swallowed silently and the run continues with the
in-memory dataframe. -/
def writeCacheOutcome (writeOk : Bool) : PersistOutcome :=
  if writeOk then { warnings := [], aborted := false }
  else { warnings := [], aborted := false }

/-- Lines 91–95: `try: df.to_sql(...) except Exception as e: st.warning(...)`
— a failed store write shows a warning and the run continues. -/
def writeStoreOutcome (writeOk : Bool) : PersistOutcome :=
  if writeOk then { warnings := [], aborted := false }
  else { warnings := ["Could not write to sqlite DB"], aborted := false }

/-! ### The backing store (`df.to_sql(..., if_exists="replace")`) -/

abbrev Store := List (String × DataFrame)

/-- Model of `df.to_sql(name, conn, if_exists="replace")`: drop any table
with the given name, then create it from the dataframe. -/
def toSqlReplace (store : Store) (name : String) (df : DataFrame) : Store :=
  store.filter (fun p => !(p.1 == name)) ++ [(name, df)]

/-- Look up a table of the backing store. -/
def getTable (store : Store) (name : String) : Option DataFrame :=
  (store.find? (fun p => p.1 == name)).map Prod.snd

theorem getTable_toSqlReplace (store : Store) (name : String) (df : DataFrame) :
    getTable (toSqlReplace store name df) name = some df := by
  unfold toSqlReplace getTable
  induction store with
  | nil => simp [List.find?]
  | cons p ps ih =>
    by_cases hp : (p.1 == name) = true
    · simp only [List.filter_cons, hp, Bool.not_true, if_false, Bool.false_eq_true]
      exact ih
    · have hp' : (p.1 == name) = false := by simpa using hp
      simp only [List.filter_cons, hp', Bool.not_false, if_true]
      rw [List.cons_append]
      rw [List.find?_cons_of_neg _ (by simpa using hp)]
      exact ih

/-! ### The query execution loop

Each catalog entry is modelled by its title and the set of table columns
its SQL text references; `pd.read_sql_query` raises `no such column`
exactly when one of them is missing from the loaded table. -/

structure CatalogQuery where
  name : String
  refCols : List String
deriving DecidableEq, Repr

/-- The ten queries of the source (lines 103–122), with the `ola_rides`
columns referenced by each SQL text. -/
def queryCatalog : List CatalogQuery :=
  [ ⟨"Query 1: All successful bookings", ["Booking_Status"]⟩,
    ⟨"Query 2: Avg ride distance per vehicle type", ["Vehicle_Type", "Ride_Distance"]⟩,
    ⟨"Query 3: Total cancelled by customers",
      ["Canceled_Rides_by_Customer", "Booking_Status"]⟩,
    ⟨"Query 4: Top 5 customers by rides", ["Customer_ID", "Booking_Value"]⟩,
    ⟨"Query 5: Driver cancellations (personal & car issues)",
      ["Canceled_Rides_by_Driver"]⟩,
    ⟨"Query 6: Max & Min driver rating for Prime Sedan",
      ["Driver_Ratings", "Vehicle_Type"]⟩,
    ⟨"Query 7: Rides paid via UPI", ["Payment_Method"]⟩,
    ⟨"Query 8: Avg customer rating per vehicle type",
      ["Vehicle_Type", "Customer_Rating"]⟩,
    ⟨"Query 9: Total booking value of successful rides",
      ["Booking_Value", "Booking_Status"]⟩,
    ⟨"Query 10: All incomplete rides with reason",
      ["Booking_ID", "Ride_Timestamp", "Booking_Status", "Incomplete_Rides",
        "Incomplete_Rides_Reason"]⟩ ]

/-- Model of `pd.read_sql_query` against the loaded table: sqlite raises
`no such column` when the query references a column the table lacks; the
`parse_dates` option does not change that failure condition. -/
def readSqlQuery (cols : List String) (q : CatalogQuery) : Except String String :=
  match q.refCols.find? (fun c => !(cols.contains c)) with
  | some c => .error ("no such column: " ++ c)
  | none => .ok q.name

/-- Lines 127–130: the read is first attempted with
`parse_dates=['Ride_Timestamp']` and retried without it on failure; a
failure of the retry propagates out of the handler. -/
def runQueryWithRetry (cols : List String) (q : CatalogQuery) : Except String String :=
  match readSqlQuery cols q with
  | .ok r => .ok r
  | .error _ => readSqlQuery cols q

/-- Line 125: the loop over the whole catalog; an exception propagating
out of an iteration aborts the remaining iterations. -/
def runAllQueries (cols : List String) (qs : List CatalogQuery) :
    Except String (List String) :=
  qs.mapM (runQueryWithRetry cols)

/-- All columns of the source dataset except `Customer_ID`. -/
def olaColsNoCustomerID : List String :=
  ["Booking_ID", "Ride_Timestamp", "Booking_Status", "Vehicle_Type",
   "Payment_Method", "Incomplete_Rides", "Incomplete_Rides_Reason",
   "Ride_Distance", "Booking_Value", "Driver_Ratings", "Customer_Rating",
   "Canceled_Rides_by_Customer", "Canceled_Rides_by_Driver"]

/-! ### Query 5 and Query 10 semantics, and the status breakdown -/

/-- sqlite `LOWER` (ASCII lowercasing). -/
def sqlLower (s : String) : String :=
  String.mk (s.data.map Char.toLower)

/-- sqlite `x LIKE '%pat%'`: substring containment. -/
def likeContains (pat s : String) : Bool :=
  (s.data.tails).any (fun t => pat.data.isPrefixOf t)

/-- The text sqlite sees for a stored cell (`NULL` for missing). -/
def sqlTextOf (c : Cell) : Option String :=
  match c with
  | .null => none
  | .str s => some s
  | .int n => some (toString n)
  | .float q => some (renderFloat q)
  | .datetime d => some (renderDateTime d)

/-- Test for `LOWER(Canceled_Rides_by_Driver) LIKE '%personal%'`. -/
def matchesPersonal (c : Cell) : Bool :=
  match sqlTextOf c with
  | some s => likeContains "personal" (sqlLower s)
  | none => false

/-- Test for `LOWER(...) LIKE '%car%' OR ... '%vehicle%' OR ... '%breakdown%'`. -/
def matchesCarIssue (c : Cell) : Bool :=
  match sqlTextOf c with
  | some s =>
    likeContains "car" (sqlLower s) || likeContains "vehicle" (sqlLower s) ||
      likeContains "breakdown" (sqlLower s)
  | none => false

/-- Query 5 (lines 108–116): over the rows whose
`Canceled_Rides_by_Driver` is not NULL, the two `SUM(CASE WHEN ...)`
aggregates. -/
def query5 (col : List Cell) : Int × Int :=
  let rows := col.filter (fun c => !(c == Cell.null))
  ((rows.map (fun c => if matchesPersonal c then (1 : Int) else 0)).sum,
   (rows.map (fun c => if matchesCarIssue c then (1 : Int) else 0)).sum)

/-- A row of the Query 10 projection. -/
structure Row10 where
  Booking_ID : Cell
  Ride_Timestamp : Cell
  Booking_Status : Cell
  Incomplete_Rides : Cell
  Incomplete_Rides_Reason : Cell
deriving DecidableEq, Repr

/-- The `WHERE` clause of Query 10:
`LOWER(Incomplete_Rides) = 'yes' OR Incomplete_Rides_Reason IS NOT NULL`. -/
def query10Pred (r : Row10) : Bool :=
  (match sqlTextOf r.Incomplete_Rides with
   | some s => sqlLower s == "yes"
   | none => false) || !(r.Incomplete_Rides_Reason == Cell.null)

/-- Mixed-radix key giving the chronological order of timestamps. -/
def dtKey (d : DateTime) : Nat :=
  ((((d.year * 13 + d.month) * 32 + d.day) * 24 + d.hour) * 60 + d.minute) * 60
    + d.second

/-- sqlite `ORDER BY` comparison on the timestamp column: `NULL` sorts
first, timestamps sort chronologically. -/
def tsCellLE (a b : Cell) : Bool :=
  match a, b with
  | .null, _ => true
  | _, .null => false
  | .datetime d1, .datetime d2 => dtKey d1 ≤ dtKey d2
  | _, _ => true

/-- Sorting for `ORDER BY Ride_Timestamp` (ascending). -/
def sortByTimestamp (rows : List Row10) : List Row10 :=
  rows.mergeSort (fun r1 r2 => tsCellLE r1.Ride_Timestamp r2.Ride_Timestamp)

/-- Query 10 (line 121): filter by the `WHERE` clause, order by
`Ride_Timestamp`. -/
def query10 (rows : List Row10) : List Row10 :=
  sortByTimestamp (rows.filter query10Pred)

/-- Model of `value_counts()`: occurrence count of each distinct value,
sorted by descending count. -/
def valueCounts (l : List Cell) : List (Cell × Nat) :=
  ((l.dedup).map (fun v => (v, l.count v))).mergeSort (fun a b => Nat.ble b.2 a.2)

/-- Lines 152–154: `df['Booking_Status'].fillna('Unknown').value_counts()`. -/
def statusCounts (col : List Cell) : List (Cell × Nat) :=
  valueCounts (col.map (fillnaCell (.str "Unknown")))

/-! ### Claim theorems -/

/-- C1 witness: idempotence evaluated on a concrete raw dataset. -/
theorem clean_idempotent_witness :
    clean (clean
      [("Date ", [Cell.str "2024-01-05", Cell.str "bad"]),
       ("Time", [Cell.str "14:30:00", Cell.null]),
       ("Payment_Method", [Cell.null, Cell.str " UPI "]),
       ("Ride_Distance", [Cell.str "5.7", Cell.str "x"]),
       ("Driver_Ratings", [Cell.str "4.5", Cell.str "n/a"])]) =
    clean
      [("Date ", [Cell.str "2024-01-05", Cell.str "bad"]),
       ("Time", [Cell.str "14:30:00", Cell.null]),
       ("Payment_Method", [Cell.null, Cell.str " UPI "]),
       ("Ride_Distance", [Cell.str "5.7", Cell.str "x"]),
       ("Driver_Ratings", [Cell.str "4.5", Cell.str "n/a"])] :=
  clean_idempotent _ (by decide)

/-- C2: Numeric-coercion asymmetry: a missing or unparsable
`Ride_Distance` or `Booking_Value` cell becomes the integer `0` (never
null), while a missing or unparsable `Driver_Ratings` or
`Customer_Rating` cell becomes null (never `0`). -/
theorem numeric_coercion_asymmetry (c : Cell)
    (h : c = .null ∨ ∃ s, c = .str s ∧ parseNumeric s = none) :
    (rideDistanceCleanCell c = .int 0 ∧ rideDistanceCleanCell c ≠ .null) ∧
    (bookingValueCleanCell c = .int 0 ∧ bookingValueCleanCell c ≠ .null) ∧
    (ratingCleanCell c = .null ∧ ratingCleanCell c ≠ .int 0) := by
  have hnum : toNumericCell c = .null := by
    rcases h with rfl | ⟨s, rfl, hp⟩
    · rfl
    · show (parseNumeric s).getD .null = .null
      rw [hp]
      rfl
  have hd : rideDistanceCleanCell c = .int 0 := by
    unfold rideDistanceCleanCell
    rw [hnum]
    rfl
  have hb : bookingValueCleanCell c = .int 0 := by
    unfold bookingValueCleanCell
    rw [hnum]
    rfl
  have hr : ratingCleanCell c = .null := hnum
  refine ⟨⟨hd, ?_⟩, ⟨hb, ?_⟩, hr, ?_⟩
  · rw [hd]; intro hc; cases hc
  · rw [hb]; intro hc; cases hc
  · rw [hr]; intro hc; cases hc

/-- C2 witness: the asymmetry evaluated at the unparsable text `"abc"`. -/
theorem numeric_coercion_asymmetry_witness :
    (rideDistanceCleanCell (.str "abc") = .int 0 ∧
      rideDistanceCleanCell (.str "abc") ≠ .null) ∧
    (bookingValueCleanCell (.str "abc") = .int 0 ∧
      bookingValueCleanCell (.str "abc") ≠ .null) ∧
    (ratingCleanCell (.str "abc") = .null ∧
      ratingCleanCell (.str "abc") ≠ .int 0) :=
  numeric_coercion_asymmetry (.str "abc") (Or.inr ⟨"abc", rfl, by decide⟩)

/-- C3: Timestamp derivation: `Date="2024-01-05"` with `Time="14:30:00"`
derives `Ride_Timestamp = 2024-01-05T14:30:00`; whenever the `Date`
parsing stage fails, the derived timestamp is null, and the (total)
derivation never aborts on a bad row. -/
theorem timestamp_derivation :
    deriveTimestampCell (.str "2024-01-05") (.str "14:30:00") =
      .datetime ⟨2024, 1, 5, 14, 30, 0⟩ ∧
    ∀ d t : Cell, toDatetimeCell d = .null → deriveTimestampCell d t = .null := by
  refine ⟨by decide, ?_⟩
  intro d t h
  unfold deriveTimestampCell
  rw [h]
  rfl

/-- C3 witness: the null-on-failure branch evaluated at an invalid date. -/
theorem timestamp_derivation_witness :
    deriveTimestampCell (.str "2024-13-40") (.str "14:30:00") = .null :=
  timestamp_derivation.2 (.str "2024-13-40") (.str "14:30:00") (by decide)

/-- C4 counterexample: with a loaded table that merely lacks
`Customer_ID`, the whole query loop returns a single propagated error:
no structured per-query result is produced and the queries after
Query 4 are never executed. -/
theorem query_failure_aborts_loop_counterexample :
    runAllQueries olaColsNoCustomerID queryCatalog =
      .error "no such column: Customer_ID" := by
  rfl

/-- C4 (amended): a query referencing a column absent from the loaded
table makes both read attempts fail, and the exception aborts the whole
loop — regardless of how many queries follow — while a catalog whose
references are all present runs to completion. -/
theorem query_failure_aborts_loop :
    (∀ (cols : List String) (qs : List CatalogQuery),
      (∀ q ∈ qs, ∀ c ∈ q.refCols, cols.contains c = true) →
      runAllQueries cols qs = .ok (qs.map (fun q => q.name))) ∧
    (∀ (cols : List String) (q : CatalogQuery) (qs : List CatalogQuery),
      (∃ c ∈ q.refCols, cols.contains c = false) →
      ∃ msg, runAllQueries cols (q :: qs) = .error msg) := by
  constructor
  · intro cols qs h
    induction qs with
    | nil => rfl
    | cons q qs ih =>
      have hq : readSqlQuery cols q = .ok q.name := by
        unfold readSqlQuery
        rw [List.find?_eq_none.mpr]
        intro c hc
        rw [h q (by simp) c hc]
        simp
      have hrun : runQueryWithRetry cols q = .ok q.name := by
        unfold runQueryWithRetry
        rw [hq]
      have ih' := ih (fun q' hq' => h q' (List.mem_cons_of_mem _ hq'))
      unfold runAllQueries at ih' ⊢
      rw [List.mapM_cons, hrun, ih']
      rfl
  · intro cols q qs ⟨c, hc, hcc⟩
    have hfind : (q.refCols.find? (fun c => !(cols.contains c))).isSome := by
      rw [List.find?_isSome]
      exact ⟨c, hc, by rw [hcc]; rfl⟩
    obtain ⟨c', hc'⟩ := Option.isSome_iff_exists.mp hfind
    have hq : readSqlQuery cols q = .error ("no such column: " ++ c') := by
      unfold readSqlQuery
      rw [hc']
    have hrun : runQueryWithRetry cols q =
        .error ("no such column: " ++ c') := by
      unfold runQueryWithRetry
      rw [hq]
    refine ⟨"no such column: " ++ c', ?_⟩
    unfold runAllQueries
    rw [List.mapM_cons, hrun]
    rfl

/-- C4 witness: with every referenced column present the loop returns
all ten results; with `Customer_ID` missing the loop aborts. -/
theorem query_failure_aborts_loop_witness :
    runAllQueries ("Customer_ID" :: olaColsNoCustomerID) queryCatalog =
      .ok (queryCatalog.map (fun q => q.name)) ∧
    ∃ msg, runAllQueries olaColsNoCustomerID
      (queryCatalog.drop 3) = .error msg := by
  constructor
  · exact query_failure_aborts_loop.1 _ _ (by decide)
  · exact query_failure_aborts_loop.2 olaColsNoCustomerID _ _
      ⟨"Customer_ID", by decide, by decide⟩

/-- C5: Replace semantics of the load: after loading dataset `A` and
then dataset `B` under the fixed table name, the backing store's table
holds exactly `B` (so none of `A`'s rows survive unless they are `B`'s). -/
theorem load_replace_semantics (store : Store) (A B : DataFrame) :
    getTable (toSqlReplace (toSqlReplace store "ola_rides" A) "ola_rides" B)
      "ola_rides" = some B ∧
    ∀ df, getTable (toSqlReplace (toSqlReplace store "ola_rides" A) "ola_rides" B)
      "ola_rides" = some df → df = B := by
  refine ⟨getTable_toSqlReplace _ _ _, ?_⟩
  intro df hdf
  rw [getTable_toSqlReplace] at hdf
  cases hdf
  rfl

/-- C6: `SourceUnavailable` is fatal: with neither the cached CSV nor
the Excel source present, `load_and_clean` reports no data and the
caller halts; in every other configuration a dataset is returned and
execution continues. -/
theorem source_unavailable_fatal (env : Env) :
    (env.cleanCsv = none → env.excel = none →
      load_and_clean env = none ∧ appHalts env = true) ∧
    ((env.cleanCsv ≠ none ∨ env.excel ≠ none) →
      ∃ df, load_and_clean env = some df ∧ appHalts env = false) := by
  obtain ⟨cc, ex⟩ := env
  constructor
  · intro h1 h2
    simp only at h1 h2
    subst h1; subst h2
    exact ⟨rfl, rfl⟩
  · intro h
    rcases cc with _ | df0
    · rcases ex with _ | raw
      · rcases h with h | h <;> simp at h
      · exact ⟨clean raw, rfl, rfl⟩
    · exact ⟨df0, rfl, rfl⟩

/-- C6 witness: the fatal and the non-fatal configuration evaluated. -/
theorem source_unavailable_fatal_witness :
    (load_and_clean ⟨none, none⟩ = none ∧ appHalts ⟨none, none⟩ = true) ∧
    (load_and_clean ⟨some [], none⟩ = some [] ∧
      appHalts ⟨some [], none⟩ = false) := by
  refine ⟨(source_unavailable_fatal ⟨none, none⟩).1 rfl rfl, ?_⟩
  obtain ⟨df, h1, h2⟩ := (source_unavailable_fatal ⟨some [], none⟩).2
    (Or.inl (by simp))
  have : df = [] := by
    rw [show load_and_clean ⟨some [], none⟩ = some [] from rfl] at h1
    cases h1
    rfl
  rw [this] at h1
  exact ⟨h1, h2⟩

/-- C8 counterexample: a failed cache write emits no warning at all, so
the claim that every persistence failure is logged/warned is false. -/
theorem persistence_warning_counterexample :
    (writeCacheOutcome false).warnings = [] ∧
    (writeCacheOutcome false).aborted = false :=
  ⟨rfl, rfl⟩

/-- C8 (amended): both persistence failures are non-fatal (the run
proceeds with the in-memory dataset), but only the backing-store write
failure is warned; the cache write failure is swallowed silently. -/
theorem persistence_failure_policy :
    (writeCacheOutcome false).aborted = false ∧
    (writeCacheOutcome false).warnings = [] ∧
    (writeStoreOutcome false).aborted = false ∧
    (writeStoreOutcome false).warnings = ["Could not write to sqlite DB"] :=
  ⟨rfl, rfl, rfl, rfl⟩

theorem sum_map_ite_one (p : Cell → Bool) (l : List Cell) :
    (l.map (fun c => if p c then (1 : Int) else 0)).sum = (l.countP p : Int) := by
  induction l with
  | nil => rfl
  | cons c t ih =>
    rw [List.map_cons, List.sum_cons, ih, List.countP_cons]
    push_cast
    ring

theorem query5_eq_counts (col : List Cell) :
    query5 col =
      (((col.filter (fun c => !(c == Cell.null))).countP matchesPersonal : Int),
       ((col.filter (fun c => !(c == Cell.null))).countP matchesCarIssue : Int)) := by
  show
    (((col.filter (fun c => !(c == Cell.null))).map
        (fun c => if matchesPersonal c then (1 : Int) else 0)).sum,
     ((col.filter (fun c => !(c == Cell.null))).map
        (fun c => if matchesCarIssue c then (1 : Int) else 0)).sum) = _
  rw [sum_map_ite_one, sum_map_ite_one]

/-- C7: Query 5 counting: over the rows with a non-null
`Canceled_Rides_by_Driver` reason, the first aggregate counts the rows
whose lower-cased reason contains `"personal"` and the second those
containing `"car"`, `"vehicle"` or `"breakdown"`; the two counts are
non-exclusive — a row matching both patterns adds one to each. -/
theorem query5_counts :
    (∀ col : List Cell,
      query5 col =
        (((col.filter (fun c => !(c == Cell.null))).countP matchesPersonal : Int),
         ((col.filter (fun c => !(c == Cell.null))).countP matchesCarIssue : Int))) ∧
    (∀ (col : List Cell) (c : Cell), c ≠ Cell.null →
      matchesPersonal c = true → matchesCarIssue c = true →
      query5 (c :: col) = ((query5 col).1 + 1, (query5 col).2 + 1)) := by
  refine ⟨query5_eq_counts, ?_⟩
  intro col c hc h1 h2
  have hfc : (c :: col).filter (fun c => !(c == Cell.null)) =
      c :: col.filter (fun c => !(c == Cell.null)) := by
    rw [List.filter_cons]
    rw [if_pos (by simpa using hc)]
  rw [query5_eq_counts, query5_eq_counts, hfc, List.countP_cons, List.countP_cons,
    h1, h2]
  push_cast
  rfl

/-- C7 witness: a reason matching both patterns increments both counts. -/
theorem query5_counts_witness :
    query5 [Cell.str "Personal car breakdown"] =
      ((query5 []).1 + 1, (query5 []).2 + 1) :=
  query5_counts.2 [] (Cell.str "Personal car breakdown") (by decide)
    (by decide) (by decide)

/-- C9: After the non-cached normalization, every
`Incomplete_Rides_Reason` cell is a non-empty string, so Query 10's
`Incomplete_Rides_Reason IS NOT NULL` disjunct holds on every loaded
row and Query 10 returns all rows of the table, ordered by
`Ride_Timestamp` ascending, not only the incomplete rides. -/
theorem query10_returns_all_rows :
    (∀ c : Cell, ∃ s, catFillCell "Unknown Reason" c = .str s ∧ s ≠ "") ∧
    (∀ rows : List Row10,
      (∀ r ∈ rows, ∃ c, r.Incomplete_Rides_Reason =
        catFillCell "Unknown Reason" c) →
      query10 rows = sortByTimestamp rows) := by
  constructor
  · intro c
    obtain ⟨s, hs, hne, _⟩ := catFillCell_shape "Unknown Reason" c
      (by decide) (by decide)
    exact ⟨s, hs, hne⟩
  · intro rows h
    unfold query10
    congr 1
    rw [List.filter_eq_self]
    intro r hr
    obtain ⟨c, hc⟩ := h r hr
    obtain ⟨s, hs, _, _⟩ := catFillCell_shape "Unknown Reason" c
      (by decide) (by decide)
    unfold query10Pred
    rw [hc, hs]
    simp

/-- C9 witness: Query 10 returns both rows of a concrete two-row table
whose reasons came out of the categorical fill. -/
theorem query10_returns_all_rows_witness :
    query10
      [⟨.str "B1", .datetime ⟨2024, 1, 5, 14, 30, 0⟩, .str "Success",
          .str "No", .str "Unknown Reason"⟩,
       ⟨.str "B2", .null, .str "Success", .str "No", .str "ok"⟩] =
    sortByTimestamp
      [⟨.str "B1", .datetime ⟨2024, 1, 5, 14, 30, 0⟩, .str "Success",
          .str "No", .str "Unknown Reason"⟩,
       ⟨.str "B2", .null, .str "Success", .str "No", .str "ok"⟩] := by
  apply query10_returns_all_rows.2
  intro r hr
  simp only [List.mem_cons, List.not_mem_nil, or_false] at hr
  rcases hr with rfl | rfl
  · exact ⟨.null, by decide⟩
  · exact ⟨.str "ok", by decide⟩

theorem count_fill_unknown (col : List Cell) :
    (col.map (fillnaCell (.str "Unknown"))).count (Cell.str "Unknown") =
      col.countP (fun c => c == Cell.null) + col.count (Cell.str "Unknown") := by
  induction col with
  | nil => rfl
  | cons c t ih =>
    rw [List.map_cons, List.count_cons, ih, List.countP_cons, List.count_cons]
    have key : (if (fillnaCell (Cell.str "Unknown") c == Cell.str "Unknown")
          then (1 : Nat) else 0) =
        (if (c == Cell.null) then (1 : Nat) else 0) +
          (if (c == Cell.str "Unknown") then (1 : Nat) else 0) := by
      by_cases hn : c = Cell.null
      · subst hn; decide
      · by_cases hu : c = Cell.str "Unknown"
        · subst hu; decide
        · have hf : fillnaCell (.str "Unknown") c = c := by
            cases c with
            | null => exact absurd rfl hn
            | str s => rfl
            | int n => rfl
            | float q => rfl
            | datetime d => rfl
          rw [hf]
          rw [show (c == Cell.null) = false from by simpa using hn,
            show (c == Cell.str "Unknown") = false from by simpa using hu]
          simp
    rw [key]
    omega

theorem sum_dedup_count (l : List Cell) :
    ((l.dedup).map (fun v => l.count v)).sum = l.length := by
  have h1 : ((l.dedup).map (fun v => l.count v)).sum =
      (l.dedup).toFinset.sum (fun v => l.count v) :=
    (List.sum_toFinset _ (List.nodup_dedup l)).symm
  have h2 : (l.dedup).toFinset = l.toFinset := by
    ext a
    simp [List.mem_toFinset, List.mem_dedup]
  rw [h1, h2]
  exact List.sum_toFinset_count_eq_length l

/-- C10: In the status breakdown, rows with a missing `Booking_Status`
are counted under the label `"Unknown"` rather than dropped, and the
breakdown's counts always sum to the number of rows of the dataset. -/
theorem status_counts_total (col : List Cell) :
    ((statusCounts col).map Prod.snd).sum = col.length ∧
    (Cell.null ∈ col →
      (Cell.str "Unknown",
        col.countP (fun c => c == Cell.null) + col.count (Cell.str "Unknown")) ∈
        statusCounts col) := by
  have hp := List.mergeSort_perm
    (((col.map (fillnaCell (.str "Unknown"))).dedup).map
      (fun v => (v, (col.map (fillnaCell (.str "Unknown"))).count v)))
    (fun a b => Nat.ble b.2 a.2)
  constructor
  · unfold statusCounts valueCounts
    rw [List.Perm.sum_eq (hp.map Prod.snd)]
    rw [List.map_map]
    have hcomp : (Prod.snd ∘ fun v =>
        (v, (col.map (fillnaCell (.str "Unknown"))).count v)) =
        fun v => (col.map (fillnaCell (.str "Unknown"))).count v := rfl
    rw [hcomp, sum_dedup_count, List.length_map]
  · intro hnull
    unfold statusCounts valueCounts
    rw [List.Perm.mem_iff hp]
    apply List.mem_map.mpr
    refine ⟨Cell.str "Unknown", ?_, ?_⟩
    · rw [List.mem_dedup]
      exact List.mem_map.mpr ⟨Cell.null, hnull, rfl⟩
    · rw [count_fill_unknown]

/-- C10 witness: the breakdown of a concrete three-row status column
with one missing status. -/
theorem status_counts_total_witness :
    ((statusCounts [Cell.null, Cell.str "Success", Cell.str "Success"]).map
      Prod.snd).sum = 3 ∧
    (Cell.str "Unknown", 1) ∈
      statusCounts [Cell.null, Cell.str "Success", Cell.str "Success"] := by
  have h := status_counts_total [Cell.null, Cell.str "Success", Cell.str "Success"]
  exact ⟨h.1, h.2 (by decide)⟩

end OlaRide

